import Mathlib

/-!
Verification of the key-rotation and failure-isolation core of an HTTP
reverse proxy (an Express/axios service plus a serverless variant).

The embedding below translates, definition by definition:
  * `APIKeyManager` (`server.js`): `keys`, `currentIndex`, `failedKeys`,
    with `getNextKey`, `markKeyAsFailed`, `resetFailedKeys` and the
    constructor's empty-pool check;
  * `makeRequestWithRetry` (`server.js`): the bounded retry loop around
    the upstream HTTP call, including which statuses mark a key failed
    and when the loop gives up;
  * `getApiKey` (`api/proxy.js`): the serverless round-robin / random
    selection with its empty-pool error;
  * the response payload builders of `api/proxy.js` that expose only a
    redacted key suffix.

JavaScript `Set` values are modelled as duplicate-free lists (insertion
order preserved, `add` is a no-op on members), machine integers as `Nat`
(all index arithmetic in the source is non-negative and uses `%`), and
`throw` as `Except.error`.
-/

namespace AiGateway

/-- JS `Set.add`: append the element unless it is already a member. -/
def setAdd (failed : List String) (key : String) : List String :=
  if key ∈ failed then failed else failed ++ [key]

/-- State of `APIKeyManager` (`server.js`): the configured key list, the
rotation cursor `currentIndex`, and the set of keys marked failed. -/
structure KeyState where
  keys : List String
  currentIndex : Nat
  failedKeys : List String
deriving DecidableEq

/-- `APIKeyManager` constructor: throws when the key list is empty,
otherwise starts with cursor `0` and no failed keys. -/
def mkAPIKeyManager (keys : List String) : Except String KeyState :=
  if keys.length = 0 then
    Except.error "No API keys configured. Please set API_KEYS environment variable."
  else
    Except.ok { keys := keys, currentIndex := 0, failedKeys := [] }

/-- The available (non-failed) subsequence of the key list, as computed by
`this.keys.filter(key => !this.failedKeys.has(key))`. -/
def availableKeys (s : KeyState) : List String :=
  s.keys.filter (fun key => !(s.failedKeys.contains key))

/-- `APIKeyManager.getNextKey`: if every key is failed, clear the failed
set and fall back to indexing the full key list by `currentIndex` (the
cursor is not advanced on this path); otherwise return
`available[currentIndex % available.length]` and advance the cursor by one
modulo the available length. `List.getD` with default `""` models JS array
indexing. -/
def getNextKey (s : KeyState) : String × KeyState :=
  let available := availableKeys s
  if available.length = 0 then
    (s.keys.getD (s.currentIndex % s.keys.length) "",
      { s with failedKeys := [] })
  else
    (available.getD (s.currentIndex % available.length) "",
      { s with currentIndex := (s.currentIndex + 1) % available.length })

/-- `APIKeyManager.markKeyAsFailed`: add the key to the failed set. -/
def markKeyAsFailed (key : String) (s : KeyState) : KeyState :=
  { s with failedKeys := setAdd s.failedKeys key }

/-- `APIKeyManager.resetFailedKeys`: clear the failed set. -/
def resetFailedKeys (s : KeyState) : KeyState :=
  { s with failedKeys := [] }

/-- `availableKeys` as reported by the `/health` endpoint:
`keyManager.keys.length - keyManager.failedKeys.size`. -/
def availableCount (s : KeyState) : Nat :=
  s.keys.length - s.failedKeys.length

/-- Iterate `getNextKey` `n` times, returning the list of selected keys in
order together with the final state. -/
def selectN (s : KeyState) : Nat → List String × KeyState
  | 0 => ([], s)
  | n + 1 =>
    let step := getNextKey s
    let rest := selectN step.2 n
    (step.1 :: rest.1, rest.2)

/-- Result of one upstream HTTP attempt as observed through axios: either a
settled response carrying an HTTP status, or a transport-level failure with
no response (DNS failure, connection refusal, timeout). -/
inductive UpstreamResult where
  | response (status : Nat)
  | networkError
deriving DecidableEq

/-- Terminal outcome of `makeRequestWithRetry`: a 2xx response returned to
the caller, a thrown axios error that carries a response status
(`error.response`), a thrown transport error (`error.request`), or the
`undefined` fallthrough when the loop never runs (`maxRetries = 0`). -/
inductive DispatchResult where
  | success (status : Nat)
  | httpError (status : Nat)
  | netError
  | noAttempt
deriving DecidableEq

/-- axios' default `validateStatus`: only `200 <= status < 300` resolves;
every other status rejects with `error.response` set. -/
def is2xx (status : Nat) : Bool :=
  decide (200 ≤ status) && decide (status < 300)

/-- Trace of one `makeRequestWithRetry` call: the terminal result, the
final pool state, the keys used by the attempts in order, and the keys on
which `markKeyAsFailed` was invoked, in order. -/
structure DispatchOutcome where
  result : DispatchResult
  finalState : KeyState
  keysTried : List String
  markedKeys : List String
deriving DecidableEq

/-- The retry loop body of `makeRequestWithRetry`, with the remaining
attempt budget as fuel (`fuel + 1` attempts left means the current attempt
is the last iff `fuel = 0`, matching `attempt === maxRetries`). Each
iteration selects a key, issues the upstream call, returns on a 2xx
response, and otherwise marks the key failed exactly when the status is
401 or 403, then retries unless the budget is spent, in which case the
error propagates. Transport failures mark nothing and are retried the
same way. -/
def attemptLoop (upstream : Nat → UpstreamResult) :
    Nat → Nat → KeyState → List String → List String → DispatchOutcome
  | _, 0, s, tried, marked => ⟨.noAttempt, s, tried, marked⟩
  | attempt, fuel + 1, s, tried, marked =>
    let step := getNextKey s
    let key := step.1
    let s1 := step.2
    match upstream attempt with
    | .response status =>
      if is2xx status then
        ⟨.success status, s1, tried ++ [key], marked⟩
      else
        let isAuth := status = 401 ∨ status = 403
        let s2 := if isAuth then markKeyAsFailed key s1 else s1
        let marked2 := if isAuth then marked ++ [key] else marked
        if fuel = 0 then
          ⟨.httpError status, s2, tried ++ [key], marked2⟩
        else
          attemptLoop upstream (attempt + 1) fuel s2 (tried ++ [key]) marked2
    | .networkError =>
      if fuel = 0 then
        ⟨.netError, s1, tried ++ [key], marked⟩
      else
        attemptLoop upstream (attempt + 1) fuel s1 (tried ++ [key]) marked

/-- `makeRequestWithRetry(config, maxRetries = 3)`: run the attempt loop
starting at attempt number 1 with an empty trace. `upstream n` is the
result of the axios call made by attempt `n`. -/
def makeRequestWithRetry (upstream : Nat → UpstreamResult) (s : KeyState)
    (maxRetries : Nat := 3) : DispatchOutcome :=
  attemptLoop upstream 1 maxRetries s [] []

/-- Rotation strategy of `api/proxy.js`. -/
inductive RotationMode where
  | roundRobin
  | random
deriving DecidableEq

/-- `getApiKey(mode)` from `api/proxy.js`: throws when the pool is empty;
`random` returns the key at a caller-supplied random index (the
`Math.floor(Math.random() * length)` draw, passed in as an oracle) without
touching the cursor; round-robin returns `API_KEYS[keyIndex]` and advances
`keyIndex` to `(keyIndex + 1) % length`. Returns the selected key and the
new cursor. -/
def getApiKey (apiKeys : List String) (mode : RotationMode)
    (keyIndex : Nat) (randomIndex : Nat) : Except String (String × Nat) :=
  if apiKeys.length = 0 then
    Except.error "No API keys configured"
  else
    match mode with
    | .random => Except.ok (apiKeys.getD randomIndex "", keyIndex)
    | .roundRobin =>
      Except.ok (apiKeys.getD keyIndex "", (keyIndex + 1) % apiKeys.length)

/-- `key.slice(-4)`: the suffix made of the last four characters (the
whole string when it is shorter), modelled on the character list of the
string. -/
def lastFour (key : String) : String :=
  ⟨key.data.drop (key.data.length - 4)⟩

/-- The redacted form of a credential used everywhere a key is echoed:
`` `...${key.slice(-4)}` ``. -/
def redactKey (key : String) : String :=
  "..." ++ lastFour key

/-- The `metadata` object of the success response of `api/proxy.js`. -/
structure ResponseMetadata where
  rotationMode : String
  keyUsed : String
deriving DecidableEq

/-- Builds the success-response `metadata`: the rotation mode and the
redacted key suffix (`` keyUsed: `...${selectedPrivateKey.slice(-4)}` ``). -/
def buildSuccessMetadata (rotationMode selectedPrivateKey : String) :
    ResponseMetadata :=
  { rotationMode := rotationMode, keyUsed := redactKey selectedPrivateKey }

/-- The 401/403 error payload of `api/proxy.js` (upstream auth failure). -/
structure AuthErrorPayload where
  errorMessage : String
  keyUsed : String
deriving DecidableEq

/-- Builds the auth-failure payload: a fixed message plus the redacted key
suffix. -/
def buildAuthErrorPayload (selectedPrivateKey : String) : AuthErrorPayload :=
  { errorMessage := "Upstream API failed - Authentication error with private key",
    keyUsed := redactKey selectedPrivateKey }

/-! ## Helper lemmas -/

theorem contains_false_iff (l : List String) (a : String) :
    l.contains a = false ↔ a ∉ l := by
  simp [List.contains]

theorem getD_mem_of_lt {l : List String} {n : Nat} (h : n < l.length) :
    l.getD n "" ∈ l := by
  rw [List.getD_eq_getElem _ _ h]
  exact List.getElem_mem h

theorem availableKeys_no_failed (s : KeyState) (hf : s.failedKeys = []) :
    availableKeys s = s.keys := by
  unfold availableKeys
  rw [List.filter_eq_self]
  intro a _
  simp [hf]

theorem getNextKey_no_failed (s : KeyState) (hk : s.keys ≠ [])
    (hf : s.failedKeys = []) :
    getNextKey s = (s.keys.getD (s.currentIndex % s.keys.length) "",
      { s with currentIndex := (s.currentIndex + 1) % s.keys.length }) := by
  have ha := availableKeys_no_failed s hf
  have hlen : s.keys.length ≠ 0 := by
    simpa [List.length_eq_zero] using hk
  unfold getNextKey
  rw [ha, if_neg hlen]

theorem setAdd_self_mem (l : List String) (k : String) : k ∈ setAdd l k := by
  unfold setAdd
  split
  · assumption
  · simp

theorem setAdd_of_mem {l : List String} {k : String} (h : k ∈ l) :
    setAdd l k = l := by
  unfold setAdd
  rw [if_pos h]

theorem setAdd_length_of_not_mem {l : List String} {k : String} (h : k ∉ l) :
    (setAdd l k).length = l.length + 1 := by
  unfold setAdd
  rw [if_neg h]
  simp

/-- With no failed keys, the `n` keys produced by `selectN` are
`keys[(c + j) % L]` for `j = 0, …, n - 1`, the key list and the empty
failed set are preserved, and the cursor advances by `n` modulo `L`. -/
theorem selectN_no_failed (keys : List String) (hk : keys ≠ []) (N : Nat) :
    ∀ c, (selectN ⟨keys, c, []⟩ N).1 =
      (List.range N).map (fun j => keys.getD ((c + j) % keys.length) "") ∧
    (selectN ⟨keys, c, []⟩ N).2.keys = keys ∧
    (selectN ⟨keys, c, []⟩ N).2.failedKeys = [] ∧
    (selectN ⟨keys, c, []⟩ N).2.currentIndex % keys.length =
      (c + N) % keys.length := by
  induction N with
  | zero => exact fun c => ⟨by simp [selectN], rfl, rfl, rfl⟩
  | succ n ih =>
    intro c
    have hstep := getNextKey_no_failed ⟨keys, c, []⟩ hk rfl
    obtain ⟨h1, h2, h3, h4⟩ := ih ((c + 1) % keys.length)
    simp only [selectN, hstep]
    refine ⟨?_, h2, h3, ?_⟩
    · rw [h1, List.range_succ_eq_map, List.map_cons, List.map_map]
      congr 1
      apply List.map_congr_left
      intro j _
      simp only [Function.comp_apply, Nat.succ_eq_add_one]
      rw [Nat.mod_add_mod]
      have hadd : c + (j + 1) = c + 1 + j := by omega
      rw [hadd]
    · rw [h4, Nat.mod_add_mod]
      have hadd : c + 1 + n = c + (n + 1) := by omega
      rw [hadd]

/-- One full round of `L` consecutive selections with no failed keys hits
every index of the key list, so each key value is selected at least once. -/
theorem count_cycle (keys : List String) (hk : keys ≠ []) (c i : Nat)
    (hi : i < keys.length) :
    1 ≤ ((List.range keys.length).map
      (fun j => keys.getD ((c + j) % keys.length) "")).count (keys.getD i "") := by
  have hL : 0 < keys.length := List.length_pos.mpr hk
  have hcl : c % keys.length < keys.length := Nat.mod_lt _ hL
  have hr : (i + keys.length - c % keys.length) % keys.length < keys.length :=
    Nat.mod_lt _ hL
  have hcr : (c + (i + keys.length - c % keys.length) % keys.length) %
      keys.length = i := by
    rw [Nat.add_mod_mod, ← Nat.mod_add_mod]
    have heq : c % keys.length + (i + keys.length - c % keys.length) =
        i + keys.length := by omega
    rw [heq, Nat.add_mod_right, Nat.mod_eq_of_lt hi]
  have hmem : keys.getD i "" ∈ (List.range keys.length).map
      (fun j => keys.getD ((c + j) % keys.length) "") := by
    rw [List.mem_map]
    exact ⟨(i + keys.length - c % keys.length) % keys.length,
      List.mem_range.mpr hr, by rw [hcr]⟩
  exact List.count_pos_iff.mpr hmem

/-- `selectN` over `a + b` steps is the concatenation of the first `a`
selections with the next `b` selections from the intermediate state. -/
theorem selectN_append (a : Nat) :
    ∀ (s : KeyState) (b : Nat),
      (selectN s (a + b)).1 = (selectN s a).1 ++ (selectN (selectN s a).2 b).1 ∧
      (selectN s (a + b)).2 = (selectN (selectN s a).2 b).2 := by
  induction a with
  | zero => exact fun s b => ⟨by simp [selectN], by simp [selectN]⟩
  | succ n ih =>
    intro s b
    have harith : n + 1 + b = (n + b) + 1 := by omega
    rw [harith]
    simp only [selectN]
    obtain ⟨ih1, ih2⟩ := ih (getNextKey s).2 b
    exact ⟨by rw [ih1, List.cons_append], by rw [ih2]⟩

/-- Counting bound for round-robin with no failures: over any `N`
consecutive selections, each index of the key list is returned at least
`N / L` times. -/
theorem count_selectN (keys : List String) (hk : keys ≠ []) (i : Nat)
    (hi : i < keys.length) :
    ∀ N c, N / keys.length ≤ (selectN ⟨keys, c, []⟩ N).1.count (keys.getD i "") := by
  have hL : 0 < keys.length := List.length_pos.mpr hk
  intro N
  induction N using Nat.strong_induction_on with
  | _ N ih =>
    intro c
    by_cases hNL : N < keys.length
    · rw [Nat.div_eq_of_lt hNL]
      exact Nat.zero_le _
    · push_neg at hNL
      obtain ⟨M, hM⟩ : ∃ M, N = keys.length + M := ⟨N - keys.length, by omega⟩
      subst hM
      obtain ⟨happ, _⟩ := selectN_append keys.length ⟨keys, c, []⟩ M
      rw [happ, List.count_append]
      obtain ⟨hfst, hkeys, hfail, _⟩ := selectN_no_failed keys hk keys.length c
      have hcyc : 1 ≤ (selectN ⟨keys, c, []⟩ keys.length).1.count (keys.getD i "") := by
        rw [hfst]
        exact count_cycle keys hk c i hi
      have hrest : M / keys.length ≤
          (selectN (selectN ⟨keys, c, []⟩ keys.length).2 M).1.count (keys.getD i "") := by
        have hstate : (selectN ⟨keys, c, []⟩ keys.length).2 =
            ⟨keys, (selectN ⟨keys, c, []⟩ keys.length).2.currentIndex, []⟩ := by
          cases hsnd : (selectN ⟨keys, c, []⟩ keys.length).2 with
          | mk ks ci fs =>
            rw [hsnd] at hkeys hfail
            simp only at hkeys hfail
            simp [hkeys, hfail]
        rw [hstate]
        exact ih M (by omega) _
      have hdiv : (keys.length + M) / keys.length = M / keys.length + 1 := by
        rw [Nat.add_comm keys.length M, Nat.add_div_right _ hL]
      omega

/-! ## C1 -/

/-- C1: with a non-empty key list and no failed keys, round-robin
selection returns `available[cursor % L]` (where the available list is the
full key list) and advances the cursor by one modulo `L`; consequently `N`
consecutive selections return each key at least `N / L` times. -/
theorem roundRobin_even_distribution (s : KeyState) (hk : s.keys ≠ [])
    (hf : s.failedKeys = []) :
    getNextKey s = (s.keys.getD (s.currentIndex % s.keys.length) "",
      { s with currentIndex := (s.currentIndex + 1) % s.keys.length }) ∧
    ∀ N i, i < s.keys.length →
      N / s.keys.length ≤ (selectN s N).1.count (s.keys.getD i "") := by
  obtain ⟨keys, c, failed⟩ := s
  simp only at hf
  subst hf
  exact ⟨getNextKey_no_failed ⟨keys, c, []⟩ hk rfl,
    fun N i hi => count_selectN keys hk i hi N c⟩

theorem roundRobin_even_distribution_witness :
    getNextKey ⟨["ka", "kb"], 0, []⟩ = ("ka", ⟨["ka", "kb"], 1, []⟩) ∧
    7 / 2 ≤ (selectN ⟨["ka", "kb"], 0, []⟩ 7).1.count "kb" := by
  obtain ⟨h1, h2⟩ := roundRobin_even_distribution ⟨["ka", "kb"], 0, []⟩
    (by decide) rfl
  exact ⟨h1, h2 7 1 (by decide)⟩

/-! ## C2 -/

/-- C2: when every key is in the failed set, `getNextKey` does not error:
it clears the failed set and returns a key drawn from the full key list. -/
theorem selection_recovers_when_all_failed (s : KeyState) (hk : s.keys ≠ [])
    (hall : ∀ k ∈ s.keys, k ∈ s.failedKeys) :
    (getNextKey s).1 ∈ s.keys ∧ (getNextKey s).2.failedKeys = [] := by
  have hav : availableKeys s = [] := by
    unfold availableKeys
    rw [List.filter_eq_nil_iff]
    intro a ha
    simp [hall a ha]
  have hL : 0 < s.keys.length := List.length_pos.mpr hk
  unfold getNextKey
  rw [hav]
  simp only [List.length_nil, if_pos rfl]
  exact ⟨getD_mem_of_lt (Nat.mod_lt _ hL), rfl⟩

theorem selection_recovers_when_all_failed_witness :
    (getNextKey ⟨["ka", "kb"], 1, ["kb", "ka"]⟩).1 ∈ ["ka", "kb"] ∧
    (getNextKey ⟨["ka", "kb"], 1, ["kb", "ka"]⟩).2.failedKeys = [] :=
  selection_recovers_when_all_failed ⟨["ka", "kb"], 1, ["kb", "ka"]⟩
    (by decide) (by decide)

/-! ## C6 -/

/-- C6: `markKeyAsFailed` is idempotent; after marking a pool key `k` that
was not already failed, `k` is excluded from the available list and from
`availableCount` (which drops by one), until `resetFailedKeys` restores the
full count and makes `k` available again. -/
theorem markFailed_idempotent_excludes (s : KeyState) (k : String)
    (hk : k ∈ s.keys) (hnf : k ∉ s.failedKeys) :
    markKeyAsFailed k (markKeyAsFailed k s) = markKeyAsFailed k s ∧
    k ∉ availableKeys (markKeyAsFailed k s) ∧
    availableCount (markKeyAsFailed k s) = availableCount s - 1 ∧
    availableCount (resetFailedKeys (markKeyAsFailed k s)) = s.keys.length ∧
    k ∈ availableKeys (resetFailedKeys (markKeyAsFailed k s)) := by
  refine ⟨?_, ?_, ?_, ?_, ?_⟩
  · unfold markKeyAsFailed
    simp [setAdd_of_mem (setAdd_self_mem s.failedKeys k)]
  · intro hmem
    have := (List.mem_filter.mp hmem).2
    simp only [markKeyAsFailed] at this
    rw [Bool.not_eq_true', contains_false_iff] at this
    exact this (setAdd_self_mem s.failedKeys k)
  · unfold availableCount markKeyAsFailed
    simp only
    rw [setAdd_length_of_not_mem hnf, Nat.sub_sub]
  · unfold availableCount resetFailedKeys markKeyAsFailed
    simp
  · unfold availableKeys resetFailedKeys markKeyAsFailed
    simp only [List.mem_filter]
    exact ⟨hk, by simp⟩

theorem markFailed_idempotent_excludes_witness :
    markKeyAsFailed "ka" (markKeyAsFailed "ka" ⟨["ka", "kb", "kc"], 0, ["kc"]⟩) =
      markKeyAsFailed "ka" ⟨["ka", "kb", "kc"], 0, ["kc"]⟩ ∧
    "ka" ∉ availableKeys (markKeyAsFailed "ka" ⟨["ka", "kb", "kc"], 0, ["kc"]⟩) ∧
    availableCount (markKeyAsFailed "ka" ⟨["ka", "kb", "kc"], 0, ["kc"]⟩) =
      availableCount ⟨["ka", "kb", "kc"], 0, ["kc"]⟩ - 1 ∧
    availableCount (resetFailedKeys
      (markKeyAsFailed "ka" ⟨["ka", "kb", "kc"], 0, ["kc"]⟩)) =
      (KeyState.mk ["ka", "kb", "kc"] 0 ["kc"]).keys.length ∧
    "ka" ∈ availableKeys (resetFailedKeys
      (markKeyAsFailed "ka" ⟨["ka", "kb", "kc"], 0, ["kc"]⟩)) :=
  markFailed_idempotent_excludes ⟨["ka", "kb", "kc"], 0, ["kc"]⟩ "ka"
    (by decide) (by decide)

/-! ## C7 -/

/-- C7: an empty credential pool makes the `APIKeyManager` constructor
throw (so no request is ever served from an empty pool), a successful
construction always carries the given non-empty key list, and the
serverless `getApiKey` likewise errors on an empty pool before any
dispatch. -/
theorem empty_pool_fails_construction :
    mkAPIKeyManager [] =
      Except.error "No API keys configured. Please set API_KEYS environment variable." ∧
    (∀ keys s, mkAPIKeyManager keys = Except.ok s →
      keys ≠ [] ∧ s.keys = keys ∧ s.keys ≠ []) ∧
    (∀ mode keyIndex randomIndex,
      getApiKey [] mode keyIndex randomIndex =
        Except.error "No API keys configured") := by
  refine ⟨rfl, ?_, ?_⟩
  · intro keys s hok
    unfold mkAPIKeyManager at hok
    by_cases h : keys.length = 0
    · rw [if_pos h] at hok
      exact absurd hok (by simp)
    · rw [if_neg h] at hok
      have hs : s = { keys := keys, currentIndex := 0, failedKeys := [] } :=
        (Except.ok.injEq _ _ ▸ hok.symm : _)
      have hne : keys ≠ [] := by
        intro hnil
        exact h (by simp [hnil])
      exact ⟨hne, by rw [hs], by rw [hs]; exact hne⟩
  · intro mode keyIndex randomIndex
    rfl

theorem empty_pool_fails_construction_witness :
    ["k1"] ≠ ([] : List String) ∧
    (KeyState.mk ["k1"] 0 []).keys = ["k1"] ∧
    (KeyState.mk ["k1"] 0 []).keys ≠ [] :=
  empty_pool_fails_construction.2.1 ["k1"] (KeyState.mk ["k1"] 0 []) rfl

/-! ## Dispatcher step lemmas -/

/-- A 2xx response ends the loop at the current attempt with a success. -/
theorem attemptLoop_step_success (upstream : Nat → UpstreamResult)
    (attempt fuel : Nat) (s : KeyState) (tried marked : List String)
    (st : Nat) (hst : upstream attempt = .response st)
    (h2xx : is2xx st = true) :
    attemptLoop upstream attempt (fuel + 1) s tried marked =
      ⟨.success st, (getNextKey s).2, tried ++ [(getNextKey s).1], marked⟩ := by
  simp only [attemptLoop, hst, h2xx, if_true]

/-- A 401/403 response marks the selected key failed, then either raises
the final error (no budget left) or retries. -/
theorem attemptLoop_step_auth (upstream : Nat → UpstreamResult)
    (attempt fuel : Nat) (s : KeyState) (tried marked : List String)
    (st : Nat) (hst : upstream attempt = .response st)
    (h2xx : is2xx st = false) (hauth : st = 401 ∨ st = 403) :
    attemptLoop upstream attempt (fuel + 1) s tried marked =
      if fuel = 0 then
        ⟨.httpError st, markKeyAsFailed (getNextKey s).1 (getNextKey s).2,
          tried ++ [(getNextKey s).1], marked ++ [(getNextKey s).1]⟩
      else
        attemptLoop upstream (attempt + 1) fuel
          (markKeyAsFailed (getNextKey s).1 (getNextKey s).2)
          (tried ++ [(getNextKey s).1]) (marked ++ [(getNextKey s).1]) := by
  simp only [attemptLoop, hst, h2xx, Bool.false_eq_true, if_false, if_pos hauth]

/-- Any other non-2xx response does not mark the key, and either raises
the final error (no budget left) or retries. -/
theorem attemptLoop_step_nonauth (upstream : Nat → UpstreamResult)
    (attempt fuel : Nat) (s : KeyState) (tried marked : List String)
    (st : Nat) (hst : upstream attempt = .response st)
    (h2xx : is2xx st = false) (h401 : st ≠ 401) (h403 : st ≠ 403) :
    attemptLoop upstream attempt (fuel + 1) s tried marked =
      if fuel = 0 then
        ⟨.httpError st, (getNextKey s).2, tried ++ [(getNextKey s).1], marked⟩
      else
        attemptLoop upstream (attempt + 1) fuel (getNextKey s).2
          (tried ++ [(getNextKey s).1]) marked := by
  have hnauth : ¬ (st = 401 ∨ st = 403) := by
    rintro (h | h) <;> [exact h401 h; exact h403 h]
  simp only [attemptLoop, hst, h2xx, Bool.false_eq_true, if_false,
    if_neg hnauth]

/-- A transport failure does not mark the key, and either raises the final
error (no budget left) or retries. -/
theorem attemptLoop_step_net (upstream : Nat → UpstreamResult)
    (attempt fuel : Nat) (s : KeyState) (tried marked : List String)
    (hst : upstream attempt = .networkError) :
    attemptLoop upstream attempt (fuel + 1) s tried marked =
      if fuel = 0 then
        ⟨.netError, (getNextKey s).2, tried ++ [(getNextKey s).1], marked⟩
      else
        attemptLoop upstream (attempt + 1) fuel (getNextKey s).2
          (tried ++ [(getNextKey s).1]) marked := by
  simp only [attemptLoop, hst]

/-- When every attempt in the window returns 401 or 403, the loop uses its
whole budget, the tried and marked traces extend by the same keys, and the
final result is the last auth error. -/
theorem attemptLoop_all_auth (upstream : Nat → UpstreamResult) :
    ∀ (fuel attempt : Nat) (s : KeyState) (tried marked : List String),
    fuel ≠ 0 →
    (∀ a, attempt ≤ a → a < attempt + fuel →
      upstream a = .response 401 ∨ upstream a = .response 403) →
    ∃ t st,
      (attemptLoop upstream attempt fuel s tried marked).keysTried = tried ++ t ∧
      (attemptLoop upstream attempt fuel s tried marked).markedKeys = marked ++ t ∧
      t.length = fuel ∧
      (attemptLoop upstream attempt fuel s tried marked).result = .httpError st ∧
      (st = 401 ∨ st = 403) := by
  intro fuel
  induction fuel with
  | zero => exact fun attempt s tried marked h _ => absurd rfl h
  | succ n ih =>
    intro attempt s tried marked _ hup
    obtain ⟨st, hst, hauth⟩ :
        ∃ st, upstream attempt = .response st ∧ (st = 401 ∨ st = 403) := by
      rcases hup attempt (Nat.le_refl _) (by omega) with h | h
      · exact ⟨401, h, Or.inl rfl⟩
      · exact ⟨403, h, Or.inr rfl⟩
    have h2xx : is2xx st = false := by
      rcases hauth with h | h <;> subst h <;> rfl
    rw [attemptLoop_step_auth upstream attempt n s tried marked st hst h2xx hauth]
    by_cases hn : n = 0
    · subst hn
      rw [if_pos rfl]
      exact ⟨[(getNextKey s).1], st, rfl, rfl, rfl, rfl, hauth⟩
    · rw [if_neg hn]
      obtain ⟨t, st2, h1, h2, h3, h4, h5⟩ :=
        ih (attempt + 1) (markKeyAsFailed (getNextKey s).1 (getNextKey s).2)
          (tried ++ [(getNextKey s).1]) (marked ++ [(getNextKey s).1]) hn
          (fun a ha1 ha2 => hup a (by omega) (by omega))
      exact ⟨(getNextKey s).1 :: t, st2,
        by rw [h1, List.append_assoc]; rfl,
        by rw [h2, List.append_assoc]; rfl,
        by simp [h3],
        h4, h5⟩

/-- When every attempt in the window returns a non-2xx status that is
neither 401 nor 403, the loop uses its whole budget, never marks a key,
and ends with the last status as an error. -/
theorem attemptLoop_all_nonauth (upstream : Nat → UpstreamResult) :
    ∀ (fuel attempt : Nat) (s : KeyState) (tried marked : List String),
    fuel ≠ 0 →
    (∀ a, attempt ≤ a → a < attempt + fuel →
      ∃ st, upstream a = .response st ∧ is2xx st = false ∧
        st ≠ 401 ∧ st ≠ 403) →
    ∃ t st,
      (attemptLoop upstream attempt fuel s tried marked).keysTried = tried ++ t ∧
      (attemptLoop upstream attempt fuel s tried marked).markedKeys = marked ∧
      t.length = fuel ∧
      (attemptLoop upstream attempt fuel s tried marked).result = .httpError st ∧
      is2xx st = false ∧ st ≠ 401 ∧ st ≠ 403 := by
  intro fuel
  induction fuel with
  | zero => exact fun attempt s tried marked h _ => absurd rfl h
  | succ n ih =>
    intro attempt s tried marked _ hup
    obtain ⟨st, hst, h2xx, h401, h403⟩ := hup attempt (Nat.le_refl _) (by omega)
    rw [attemptLoop_step_nonauth upstream attempt n s tried marked st hst
      h2xx h401 h403]
    by_cases hn : n = 0
    · subst hn
      rw [if_pos rfl]
      exact ⟨[(getNextKey s).1], st, rfl, rfl, rfl, rfl, h2xx, h401, h403⟩
    · rw [if_neg hn]
      obtain ⟨t, st2, h1, h2, h3, h4, h5, h6, h7⟩ :=
        ih (attempt + 1) (getNextKey s).2 (tried ++ [(getNextKey s).1]) marked
          hn (fun a ha1 ha2 => hup a (by omega) (by omega))
      exact ⟨(getNextKey s).1 :: t, st2,
        by rw [h1, List.append_assoc]; rfl, h2, by simp [h3], h4, h5, h6, h7⟩

/-- When every attempt in the window fails at the transport level, the
loop uses its whole budget, never marks a key, and ends with the network
error. -/
theorem attemptLoop_all_net (upstream : Nat → UpstreamResult) :
    ∀ (fuel attempt : Nat) (s : KeyState) (tried marked : List String),
    fuel ≠ 0 →
    (∀ a, attempt ≤ a → a < attempt + fuel → upstream a = .networkError) →
    ∃ t,
      (attemptLoop upstream attempt fuel s tried marked).keysTried = tried ++ t ∧
      (attemptLoop upstream attempt fuel s tried marked).markedKeys = marked ∧
      t.length = fuel ∧
      (attemptLoop upstream attempt fuel s tried marked).result = .netError := by
  intro fuel
  induction fuel with
  | zero => exact fun attempt s tried marked h _ => absurd rfl h
  | succ n ih =>
    intro attempt s tried marked _ hup
    rw [attemptLoop_step_net upstream attempt n s tried marked
      (hup attempt (Nat.le_refl _) (by omega))]
    by_cases hn : n = 0
    · subst hn
      rw [if_pos rfl]
      exact ⟨[(getNextKey s).1], rfl, rfl, rfl, rfl⟩
    · rw [if_neg hn]
      obtain ⟨t, h1, h2, h3, h4⟩ :=
        ih (attempt + 1) (getNextKey s).2 (tried ++ [(getNextKey s).1]) marked
          hn (fun a ha1 ha2 => hup a (by omega) (by omega))
      exact ⟨(getNextKey s).1 :: t,
        by rw [h1, List.append_assoc]; rfl, h2, by simp [h3], h4⟩

/-! ## C3 -/

/-- C3 counterexample: with every attempt returning HTTP 404, the
dispatcher does not return after the first completed attempt — it makes
all three attempts (sleeping and retrying in between), refuting the
claimed immediate return. No key is marked failed, and the final outcome
carries status 404. -/
theorem nonauth_immediate_return_counterexample :
    (makeRequestWithRetry (fun _ => .response 404)
      ⟨["aaaa", "bbbb", "cccc"], 0, []⟩ 3).keysTried.length = 3 ∧
    ¬ ((makeRequestWithRetry (fun _ => .response 404)
      ⟨["aaaa", "bbbb", "cccc"], 0, []⟩ 3).keysTried.length = 1) ∧
    (makeRequestWithRetry (fun _ => .response 404)
      ⟨["aaaa", "bbbb", "cccc"], 0, []⟩ 3).markedKeys = [] ∧
    (makeRequestWithRetry (fun _ => .response 404)
      ⟨["aaaa", "bbbb", "cccc"], 0, []⟩ 3).result = .httpError 404 := by
  refine ⟨rfl, by decide, rfl, rfl⟩

/-- C3 (amended): only a 2xx status returns immediately. An upstream
attempt with a non-2xx status other than 401/403 never adds the used
credential to the failed set, but it is retried like any other error: when
every attempt yields such a status the dispatcher performs all
`maxRetries` attempts and only then propagates the final status as the
outcome. -/
theorem nonauth_status_never_marked (upstream : Nat → UpstreamResult)
    (s : KeyState) (maxRetries : Nat) :
    (∀ st, upstream 1 = .response st → is2xx st = true → 1 ≤ maxRetries →
      (makeRequestWithRetry upstream s maxRetries).result = .success st ∧
      (makeRequestWithRetry upstream s maxRetries).keysTried.length = 1 ∧
      (makeRequestWithRetry upstream s maxRetries).markedKeys = []) ∧
    (1 ≤ maxRetries →
      (∀ a, 1 ≤ a → a ≤ maxRetries →
        ∃ st, upstream a = .response st ∧ is2xx st = false ∧
          st ≠ 401 ∧ st ≠ 403) →
      (makeRequestWithRetry upstream s maxRetries).keysTried.length = maxRetries ∧
      (makeRequestWithRetry upstream s maxRetries).markedKeys = [] ∧
      ∃ st, (makeRequestWithRetry upstream s maxRetries).result = .httpError st ∧
        st ≠ 401 ∧ st ≠ 403) := by
  constructor
  · intro st hst h2xx hm
    obtain ⟨fuel, hfuel⟩ : ∃ fuel, maxRetries = fuel + 1 :=
      ⟨maxRetries - 1, by omega⟩
    subst hfuel
    unfold makeRequestWithRetry
    rw [attemptLoop_step_success upstream 1 fuel s [] [] st hst h2xx]
    exact ⟨rfl, rfl, rfl⟩
  · intro hm hup
    obtain ⟨t, st, h1, h2, h3, h4, _, h6, h7⟩ :=
      attemptLoop_all_nonauth upstream maxRetries 1 s [] [] (by omega)
        (fun a ha1 ha2 => hup a ha1 (by omega))
    unfold makeRequestWithRetry
    rw [h1, h2]
    refine ⟨by simp [h3], rfl, st, h4, h6, h7⟩

theorem nonauth_status_never_marked_witness :
    (makeRequestWithRetry (fun _ => .response 502)
      ⟨["aaaa", "bbbb"], 0, []⟩ 3).keysTried.length = 3 ∧
    (makeRequestWithRetry (fun _ => .response 502)
      ⟨["aaaa", "bbbb"], 0, []⟩ 3).markedKeys = [] ∧
    ∃ st, (makeRequestWithRetry (fun _ => .response 502)
      ⟨["aaaa", "bbbb"], 0, []⟩ 3).result = .httpError st ∧
      st ≠ 401 ∧ st ≠ 403 :=
  (nonauth_status_never_marked (fun _ => .response 502)
    ⟨["aaaa", "bbbb"], 0, []⟩ 3).2 (by omega)
    (fun a _ _ => ⟨502, rfl, rfl, by omega, by omega⟩)

/-! ## C4 -/

/-- C4 counterexample: with the upstream unreachable on every attempt, the
dispatcher does not raise the network error after the first failing
attempt — it makes all three attempts, refuting the claimed zero
retries. No key is marked failed. -/
theorem network_immediate_raise_counterexample :
    (makeRequestWithRetry (fun _ => .networkError)
      ⟨["aaaa", "bbbb"], 0, []⟩ 3).keysTried.length = 3 ∧
    ¬ ((makeRequestWithRetry (fun _ => .networkError)
      ⟨["aaaa", "bbbb"], 0, []⟩ 3).keysTried.length = 1) ∧
    (makeRequestWithRetry (fun _ => .networkError)
      ⟨["aaaa", "bbbb"], 0, []⟩ 3).markedKeys = [] ∧
    (makeRequestWithRetry (fun _ => .networkError)
      ⟨["aaaa", "bbbb"], 0, []⟩ 3).result = .netError := by
  refine ⟨rfl, by decide, rfl, rfl⟩

/-- C4 (amended): a transport-level failure never marks any credential
failed, but it is not raised immediately: when every attempt fails at the
transport level the dispatcher performs all `maxRetries` attempts (with
backoff in between) and only then propagates the network error, an
outcome distinct from every HTTP-status outcome. -/
theorem network_failure_never_marked (upstream : Nat → UpstreamResult)
    (s : KeyState) (maxRetries : Nat) (hm : 1 ≤ maxRetries)
    (hup : ∀ a, 1 ≤ a → a ≤ maxRetries → upstream a = .networkError) :
    (makeRequestWithRetry upstream s maxRetries).keysTried.length = maxRetries ∧
    (makeRequestWithRetry upstream s maxRetries).markedKeys = [] ∧
    (makeRequestWithRetry upstream s maxRetries).result = .netError := by
  obtain ⟨t, h1, h2, h3, h4⟩ :=
    attemptLoop_all_net upstream maxRetries 1 s [] [] (by omega)
      (fun a ha1 ha2 => hup a ha1 (by omega))
  unfold makeRequestWithRetry
  rw [h1, h2]
  exact ⟨by simp [h3], rfl, h4⟩

theorem network_failure_never_marked_witness :
    (makeRequestWithRetry (fun _ => .networkError)
      ⟨["aaaa", "bbbb"], 1, []⟩ 2).keysTried.length = 2 ∧
    (makeRequestWithRetry (fun _ => .networkError)
      ⟨["aaaa", "bbbb"], 1, []⟩ 2).markedKeys = [] ∧
    (makeRequestWithRetry (fun _ => .networkError)
      ⟨["aaaa", "bbbb"], 1, []⟩ 2).result = .netError :=
  network_failure_never_marked (fun _ => .networkError)
    ⟨["aaaa", "bbbb"], 1, []⟩ 2 (by omega) (fun a _ _ => rfl)

/-! ## C5 -/

/-- C5: when every upstream attempt returns 401 or 403, the dispatcher
performs exactly `maxRetries` attempts, invokes `markKeyAsFailed` on the
credential of every failing attempt (the marked trace equals the tried
trace), and ends with an auth error of status 401 or 403 — an outcome
distinct from the network-failure outcome and from every pass-through
outcome (successes are 2xx and pass-through error statuses are never
401/403). -/
theorem auth_exhaustion_marks_all (upstream : Nat → UpstreamResult)
    (s : KeyState) (maxRetries : Nat) (hm : 1 ≤ maxRetries)
    (hup : ∀ a, 1 ≤ a → a ≤ maxRetries →
      upstream a = .response 401 ∨ upstream a = .response 403) :
    (makeRequestWithRetry upstream s maxRetries).keysTried.length = maxRetries ∧
    (makeRequestWithRetry upstream s maxRetries).markedKeys =
      (makeRequestWithRetry upstream s maxRetries).keysTried ∧
    (∃ st, (makeRequestWithRetry upstream s maxRetries).result = .httpError st ∧
      (st = 401 ∨ st = 403)) ∧
    (makeRequestWithRetry upstream s maxRetries).result ≠ .netError ∧
    (∀ st, (makeRequestWithRetry upstream s maxRetries).result ≠ .success st) := by
  obtain ⟨t, st, h1, h2, h3, h4, h5⟩ :=
    attemptLoop_all_auth upstream maxRetries 1 s [] [] (by omega)
      (fun a ha1 ha2 => hup a ha1 (by omega))
  unfold makeRequestWithRetry
  rw [h1, h2, h4]
  refine ⟨by simp [h3], by simp, ⟨st, rfl, h5⟩, by simp, fun st2 => by simp⟩

theorem auth_exhaustion_marks_all_witness :
    (makeRequestWithRetry (fun _ => .response 403)
      ⟨["aaaa", "bbbb", "cccc"], 0, []⟩ 3).keysTried.length = 3 ∧
    (makeRequestWithRetry (fun _ => .response 403)
      ⟨["aaaa", "bbbb", "cccc"], 0, []⟩ 3).markedKeys =
      (makeRequestWithRetry (fun _ => .response 403)
        ⟨["aaaa", "bbbb", "cccc"], 0, []⟩ 3).keysTried ∧
    (∃ st, (makeRequestWithRetry (fun _ => .response 403)
      ⟨["aaaa", "bbbb", "cccc"], 0, []⟩ 3).result = .httpError st ∧
      (st = 401 ∨ st = 403)) ∧
    (makeRequestWithRetry (fun _ => .response 403)
      ⟨["aaaa", "bbbb", "cccc"], 0, []⟩ 3).result ≠ .netError ∧
    (∀ st, (makeRequestWithRetry (fun _ => .response 403)
      ⟨["aaaa", "bbbb", "cccc"], 0, []⟩ 3).result ≠ .success st) :=
  auth_exhaustion_marks_all (fun _ => .response 403)
    ⟨["aaaa", "bbbb", "cccc"], 0, []⟩ 3 (by omega)
    (fun a _ _ => Or.inr rfl)

/-! ## C8 -/

/-- C8: every place a credential is echoed in a response carries exactly
the redaction `"..." ++` last-4-characters: the success metadata and the
auth-error payload expose only `redactKey`, the redacted suffix has fixed
length for credentials of at least 4 characters, and the payloads depend
on the credential only through its last 4 characters (two credentials
agreeing on that suffix produce identical payloads), so the full private
credential never appears. -/
theorem credential_redaction :
    (∀ mode key, (buildSuccessMetadata mode key).keyUsed = redactKey key) ∧
    (∀ key, (buildAuthErrorPayload key).keyUsed = redactKey key) ∧
    (∀ key : String, 4 ≤ key.length → (redactKey key).length = 7) ∧
    (∀ mode (k₁ k₂ : String), lastFour k₁ = lastFour k₂ →
      buildSuccessMetadata mode k₁ = buildSuccessMetadata mode k₂ ∧
      buildAuthErrorPayload k₁ = buildAuthErrorPayload k₂) := by
  refine ⟨fun _ _ => rfl, fun _ => rfl, ?_, ?_⟩
  · intro key hlen
    have hlen' : 4 ≤ key.data.length := hlen
    show ("...".data ++ (key.data.drop (key.data.length - 4))).length = 7
    rw [List.length_append, List.length_drop]
    have h3 : "...".data.length = 3 := rfl
    omega
  · intro mode k₁ k₂ hsuf
    unfold buildSuccessMetadata buildAuthErrorPayload redactKey
    rw [hsuf]
    exact ⟨rfl, rfl⟩

theorem credential_redaction_witness :
    (buildSuccessMetadata "round-robin" "sk-secret-key-1").keyUsed =
      redactKey "sk-secret-key-1" ∧
    (redactKey "sk-secret-key-1").length = 7 ∧
    buildAuthErrorPayload "sk-secret-key-1" =
      buildAuthErrorPayload "zz-hidden-key-1" := by
  refine ⟨credential_redaction.1 "round-robin" "sk-secret-key-1", ?_, ?_⟩
  · exact credential_redaction.2.2.1 "sk-secret-key-1" (by decide)
  · exact (credential_redaction.2.2.2 "round-robin" "sk-secret-key-1"
      "zz-hidden-key-1" (by decide)).2

/-! ## C9 -/

/-- C9: `markKeyAsFailed` and `resetFailedKeys` change only the failed set
(key list and cursor are untouched), and no pool operation ever changes
the key list. -/
theorem pool_ops_frame (s : KeyState) (k : String) :
    (markKeyAsFailed k s).keys = s.keys ∧
    (markKeyAsFailed k s).currentIndex = s.currentIndex ∧
    (resetFailedKeys s).keys = s.keys ∧
    (resetFailedKeys s).currentIndex = s.currentIndex ∧
    (getNextKey s).2.keys = s.keys := by
  refine ⟨rfl, rfl, rfl, rfl, ?_⟩
  simp only [getNextKey]
  split <;> rfl

/-! ## C10 -/

/-- C10: with a non-empty key list, `getNextKey` always returns an element
of the key list (both in the normal branch and in the all-failed recovery
branch), and whenever some key is not failed the returned key is not
failed. -/
theorem getNextKey_total_inbounds (s : KeyState) (hk : s.keys ≠ []) :
    (getNextKey s).1 ∈ s.keys ∧
    ((∃ k ∈ s.keys, k ∉ s.failedKeys) → (getNextKey s).1 ∉ s.failedKeys) := by
  have hL : 0 < s.keys.length := List.length_pos.mpr hk
  by_cases hav : (availableKeys s).length = 0
  · constructor
    · unfold getNextKey
      rw [if_pos hav]
      exact getD_mem_of_lt (Nat.mod_lt _ hL)
    · rintro ⟨k, hkmem, hknf⟩
      exfalso
      have : k ∈ availableKeys s := by
        unfold availableKeys
        rw [List.mem_filter]
        refine ⟨hkmem, ?_⟩
        simp [hknf]
      rw [List.length_eq_zero] at hav
      rw [hav] at this
      exact absurd this (List.not_mem_nil k)
  · have hpos : 0 < (availableKeys s).length := Nat.pos_of_ne_zero hav
    have hmem : (getNextKey s).1 ∈ availableKeys s := by
      unfold getNextKey
      rw [if_neg hav]
      exact getD_mem_of_lt (Nat.mod_lt _ hpos)
    have hfil := List.mem_filter.mp hmem
    constructor
    · exact hfil.1
    · intro _
      have := hfil.2
      rw [Bool.not_eq_true', contains_false_iff] at this
      exact this

theorem getNextKey_total_inbounds_witness :
    (getNextKey ⟨["ka", "kb"], 0, ["ka"]⟩).1 ∈ ["ka", "kb"] ∧
    ((∃ k ∈ (KeyState.mk ["ka", "kb"] 0 ["ka"]).keys,
        k ∉ (KeyState.mk ["ka", "kb"] 0 ["ka"]).failedKeys) →
      (getNextKey ⟨["ka", "kb"], 0, ["ka"]⟩).1 ∉
        (KeyState.mk ["ka", "kb"] 0 ["ka"]).failedKeys) :=
  getNextKey_total_inbounds ⟨["ka", "kb"], 0, ["ka"]⟩ (by decide)

end AiGateway
